import Mathlib

/-!
Verification of the OpenSky data-warehouse ETL pipeline
(`extract_script.py` and `load_warehouse.py`) via a shallow embedding.

CSV cells, staging cells and JSON leaf values are modelled as
`Option String` (`none` is pandas `NaN` / JSON `null` / an absent cell).
Real-valued data is modelled as `ℚ`; timestamps as rational Unix epoch
seconds.  Fallible Python code is modelled with `Except String`.
-/

namespace OpenSky

/-! ### Cell-level coercions (`transform_chunk`, load_warehouse.py lines 62-91) -/

/-- Numeral recogniser for a run of decimal digit characters. -/
def allDigits (cs : List Char) : Bool :=
  cs.all (fun c => c.isDigit)

/-- Value of a run of decimal digit characters. -/
def digitsVal (cs : List Char) : Nat :=
  cs.foldl (fun a c => a * 10 + (c.toNat - 48)) 0

/-- Split a character list at every occurrence of the separator, like the
Python `str.split`. -/
def splitOnChar (c : Char) : List Char → List (List Char)
  | [] => [[]]
  | x :: xs =>
      let r := splitOnChar c xs
      if x = c then [] :: r
      else
        match r with
        | [] => [[x]]
        | h :: t => (x :: h) :: t

/-- Unsigned decimal numeral: an integer part with an optional fractional
part (`"12"`, `"12.3"`, `".5"`, `"12."`); `ip.fp` has the value
`(ip * 10 ^ len fp + fp) / 10 ^ len fp`. -/
def parseRatCore (cs : List Char) : Option ℚ :=
  match splitOnChar '.' cs with
  | [ip] =>
      if ip ≠ [] ∧ allDigits ip then
        some (mkRat (Int.ofNat (digitsVal ip)) 1)
      else none
  | [ip, fp] =>
      if (ip ≠ [] ∨ fp ≠ []) ∧ allDigits ip ∧ allDigits fp then
        some (mkRat (Int.ofNat (digitsVal (ip ++ fp))) (10 ^ fp.length))
      else none
  | _ => none

/-- Decimal numeral parser modelling the numeric conversion performed by
`pd.to_numeric` on the string grammar this pipeline produces: an optional
sign followed by an unsigned decimal numeral.  Anything else is
unparsable and yields `none`. -/
def parseRat (s : String) : Option ℚ :=
  match s.data with
  | '-' :: rest => (parseRatCore rest).map Neg.neg
  | '+' :: rest => parseRatCore rest
  | cs => parseRatCore cs

/-- `pd.to_numeric(col, errors="coerce")` on one cell: a missing cell
(`NaN`) stays missing, an unparsable string becomes `NaN` (`none`),
a numeral becomes its numeric value.  It never raises. -/
def coerceNumeric (c : Option String) : Option ℚ :=
  c.bind parseRat

/-- `pd.to_datetime(col, unit="s", errors="coerce")` on one cell: the cell
is read as Unix epoch seconds; unparsable values become `NaT` (`none`).
The timestamp is represented by its epoch seconds. -/
def coerceEpoch (c : Option String) : Option ℚ :=
  c.bind parseRat

/-- `.astype("Int64")` applied after `pd.to_numeric(..., errors="coerce")`
on one cell: `NaN` becomes `<NA>` (`none`), an integral value becomes that
integer, and a non-integral numeric value makes pandas raise
(`cannot safely cast`). -/
def coerceInt64 (c : Option String) : Except String (Option Int) :=
  match coerceNumeric c with
  | none => Except.ok none
  | some q => if q.den = 1 then Except.ok (some q.num)
              else Except.error "TypeError: cannot safely cast non-equivalent float64 to int64"

/-- `str.lower()`, character by character. -/
def lowerStr (s : String) : String :=
  String.mk (s.data.map Char.toLower)

/-- `col.astype(str).str.lower().map({"true": True, "false": False})` on
one cell: `astype(str)` renders a missing cell as the string `"nan"`;
after lower-casing, exactly `"true"` maps to `True`, exactly `"false"`
maps to `False`, and every other value falls outside the map and becomes
`NaN` (`none`). -/
def coerceBool (c : Option String) : Option Bool :=
  let s := lowerStr (match c with | some t => t | none => "nan")
  if s = "true" then some true
  else if s = "false" then some false
  else none

/-! ### DataFrame chunks -/

/-- A pandas DataFrame chunk as produced by `pd.read_csv(..., chunksize=...)`:
named columns and rows of optional string cells (`none` is `NaN`). -/
structure RawFrame where
  cols : List String
  rows : List (List (Option String))
deriving Repr, DecidableEq

/-- Cell of a row under a named column; `none` when the column is absent,
the row is too short, or the cell is `NaN`. -/
def cellOf (cols : List String) (row : List (Option String)) (c : String) : Option String :=
  match cols.indexOf? c with
  | some i => (row.get? i).join
  | none => none

/-- Pad a row with `NaN` cells up to the given width. -/
def padTo (n : Nat) (row : List (Option String)) : List (Option String) :=
  row ++ List.replicate (n - row.length) none

/-- Column assignment `df[c] = v` with a scalar value: overwrite the column
when present, otherwise append a new column at the end. -/
def setCol (f : RawFrame) (c : String) (v : Option String) : RawFrame :=
  match f.cols.indexOf? c with
  | some i => ⟨f.cols, f.rows.map (fun r => (padTo f.cols.length r).set i v)⟩
  | none => ⟨f.cols ++ [c], f.rows.map (fun r => padTo f.cols.length r ++ [v])⟩

/-! ### transform_chunk (load_warehouse.py lines 62-91) -/

/-- One cleaned record: the 19 `final_columns` of `transform_chunk`,
with the types produced by the coercions. -/
structure CleanRow where
  load_timestamp : Option String
  file_source : Option String
  icao24 : Option String
  callsign : Option String
  origin_country : Option String
  time_position : Option ℚ
  last_contact : Option ℚ
  longitude : Option ℚ
  latitude : Option ℚ
  baro_altitude : Option ℚ
  on_ground : Option Bool
  velocity : Option ℚ
  true_track : Option ℚ
  vertical_rate : Option ℚ
  sensors : Option String
  geo_altitude : Option ℚ
  squawk : Option String
  spi : Option Bool
  position_source : Option Int
deriving Repr, DecidableEq

/-- The columns `transform_chunk` reads by name before its synthesis loop;
a chunk missing one of these makes pandas raise `KeyError`. -/
def accessedCols : List String :=
  ["longitude", "latitude", "baro_altitude", "velocity", "true_track",
   "vertical_rate", "geo_altitude", "position_source", "time_position",
   "last_contact", "on_ground", "spi"]

/-- The fixed 19-column output order of `transform_chunk`. -/
def final_columns : List String :=
  ["load_timestamp", "file_source", "icao24", "callsign", "origin_country",
   "time_position", "last_contact", "longitude", "latitude", "baro_altitude",
   "on_ground", "velocity", "true_track", "vertical_rate", "sensors",
   "geo_altitude", "squawk", "spi", "position_source"]

/-- The per-row effect of `transform_chunk`: coerce the numeric, epoch,
boolean and `Int64` columns, pass the remaining columns through
(synthesized as `none` when absent from the chunk). -/
def cleanRowOf (cols : List String) (row : List (Option String)) : Except String CleanRow :=
  match coerceInt64 (cellOf cols row "position_source") with
  | Except.error e => Except.error e
  | Except.ok ps => Except.ok
    { load_timestamp := cellOf cols row "load_timestamp"
      file_source := cellOf cols row "file_source"
      icao24 := cellOf cols row "icao24"
      callsign := cellOf cols row "callsign"
      origin_country := cellOf cols row "origin_country"
      time_position := coerceEpoch (cellOf cols row "time_position")
      last_contact := coerceEpoch (cellOf cols row "last_contact")
      longitude := coerceNumeric (cellOf cols row "longitude")
      latitude := coerceNumeric (cellOf cols row "latitude")
      baro_altitude := coerceNumeric (cellOf cols row "baro_altitude")
      on_ground := coerceBool (cellOf cols row "on_ground")
      velocity := coerceNumeric (cellOf cols row "velocity")
      true_track := coerceNumeric (cellOf cols row "true_track")
      vertical_rate := coerceNumeric (cellOf cols row "vertical_rate")
      sensors := cellOf cols row "sensors"
      geo_altitude := coerceNumeric (cellOf cols row "geo_altitude")
      squawk := cellOf cols row "squawk"
      spi := coerceBool (cellOf cols row "spi")
      position_source := ps }

/-- Apply a fallible row function to every row, propagating the first
failure (as the column-wise pandas operations do). -/
def mapRows (g : List (Option String) → Except String CleanRow) :
    List (List (Option String)) → Except String (List CleanRow)
  | [] => Except.ok []
  | r :: rs =>
      match g r with
      | Except.error e => Except.error e
      | Except.ok c =>
          match mapRows g rs with
          | Except.error e => Except.error e
          | Except.ok cs => Except.ok (c :: cs)

/-- `transform_chunk`: coerce the seven numeric columns, `position_source`,
the two epoch columns and the two boolean columns, then select the fixed
`final_columns`, synthesizing any absent remaining column as `None`. -/
def transform_chunk (f : RawFrame) : Except String (List CleanRow) :=
  if accessedCols.all (fun c => f.cols.contains c) then
    mapRows (cleanRowOf f.cols) f.rows
  else Except.error "KeyError"

/-! ### Cleaned-output CSV serialization -/

/-- A `NaN` cell is written as an empty CSV field. -/
def showStrCell : Option String → String
  | none => ""
  | some s => s

/-- A numeric cell in the cleaned CSV. -/
def showRatCell : Option ℚ → String
  | none => ""
  | some q => toString q

/-- A boolean cell in the cleaned CSV. -/
def showBoolCell : Option Bool → String
  | none => ""
  | some true => "True"
  | some false => "False"

/-- An `Int64` cell in the cleaned CSV. -/
def showIntCell : Option Int → String
  | none => ""
  | some n => toString n

/-- The header line `to_csv` writes for the cleaned output. -/
def headerLine : String :=
  String.intercalate "," final_columns

/-- One data line of the cleaned output CSV. -/
def cleanLine (r : CleanRow) : String :=
  String.intercalate ","
    [showStrCell r.load_timestamp, showStrCell r.file_source,
     showStrCell r.icao24, showStrCell r.callsign, showStrCell r.origin_country,
     showRatCell r.time_position, showRatCell r.last_contact,
     showRatCell r.longitude, showRatCell r.latitude, showRatCell r.baro_altitude,
     showBoolCell r.on_ground, showRatCell r.velocity, showRatCell r.true_track,
     showRatCell r.vertical_rate, showStrCell r.sensors, showRatCell r.geo_altitude,
     showStrCell r.squawk, showBoolCell r.spi, showIntCell r.position_source]

/-! ### process_single_file (load_warehouse.py lines 131-161) -/

/-- The stamping step of the chunk loop: `chunk["load_timestamp"] = now`
and `chunk["file_source"] = file_name`. -/
def stamp (file_name now : String) (chunk : RawFrame) : RawFrame :=
  setCol (setCol chunk "load_timestamp" (some now)) "file_source" (some file_name)

/-- The loop state of `process_single_file`: the running row count, the
content of the cleaned-output file (`none` while no chunk has been
written), the `is_first_chunk` flag, and the staging-table rows. -/
structure LoadState where
  total : Nat
  outFile : Option (List String)
  isFirst : Bool
  staging : List (List (Option String))
deriving Repr, DecidableEq

/-- The chunk loop of `process_single_file`: skip empty chunks; otherwise
stamp the chunk, append its rows to the staging table, transform it, and
append the cleaned lines (with the header when `is_first_chunk`) to the
output file. -/
def processChunks (file_name now : String) :
    List RawFrame → LoadState → Except String LoadState
  | [], st => Except.ok st
  | chunk :: rest, st =>
      if chunk.rows.isEmpty then processChunks file_name now rest st
      else
        match transform_chunk (stamp file_name now chunk) with
        | Except.error e => Except.error e
        | Except.ok clean =>
            processChunks file_name now rest
              ⟨st.total + chunk.rows.length,
               some (st.outFile.getD [] ++
                 (if st.isFirst then [headerLine] else []) ++ clean.map cleanLine),
               false,
               st.staging ++ (stamp file_name now chunk).rows⟩

/-- `process_single_file`: the pre-existing cleaned-output file
(`priorOutFile`) is deleted (`os.remove`) before the chunk loop starts,
so the loop begins from no output file; returns the total row count, the
final cleaned-output file content (`none` when no file was created) and
the staging table after the appends. -/
def process_single_file (file_name now : String)
    (_priorOutFile : Option (List String)) (chunks : List RawFrame)
    (staging : List (List (Option String))) :
    Except String (Nat × Option (List String) × List (List (Option String))) :=
  match processChunks file_name now chunks ⟨0, none, true, staging⟩ with
  | Except.error e => Except.error e
  | Except.ok st => Except.ok (st.total, st.outFile, st.staging)

/-! ### The file_log ledger (load_warehouse.py lines 93-129) -/

/-- One `file_log` row. -/
structure FileLogEntry where
  file_name : String
  status : String
  row_count : Option Nat
  error_message : Option String
  last_updated : Option String
deriving Repr, DecidableEq

/-- The `file_log` table. -/
abbrev FileLog := List FileLogEntry

/-- Whether the table has a row for the given file name. -/
def containsFile (log : FileLog) (f : String) : Bool :=
  log.any (fun e => e.file_name = f)

/-- The row for a file name, if any (PK lookup). -/
def rowOf (log : FileLog) (f : String) : Option FileLogEntry :=
  log.find? (fun e => e.file_name = f)

/-- `get_processed_files`: SELECT file_name FROM file_log WHERE
status != NEW. -/
def get_processed_files (log : FileLog) : List String :=
  (log.filter (fun e => e.status ≠ "NEW")).map (fun e => e.file_name)

/-- One row of the bulk INSERT INTO file_log (file_name) VALUES ... ON
CONFLICT (file_name) DO NOTHING.  Modelled from the spec: the DDL of
`file_log` is not in the repository sources; per the spec a newly
registered file is created with status NEW and no row count, error
message or timestamp. -/
def insertNewFile (log : FileLog) (f : String) : FileLog :=
  if containsFile log f then log else log ++ [⟨f, "NEW", none, none, none⟩]

/-- `register_new_files`: bulk-insert the new file names, no-op on
conflict. -/
def register_new_files (log : FileLog) (new_files : List String) : FileLog :=
  new_files.foldl insertNewFile log

/-- The raw-file pattern of the loader:
`f.startswith("states_") and f.endswith(".csv")`. -/
def isStatesCsv (f : String) : Bool :=
  List.isPrefixOf "states_".data f.data && List.isSuffixOf ".csv".data f.data

/-- The discovery + registration step of the loader `main`
(load_warehouse.py lines 174-187): keep the directory entries matching
`states_*.csv`, subtract the files whose ledger status is not NEW, and
register the remainder. -/
def discover_and_register (dirFiles : List String) (log : FileLog) : FileLog :=
  let csv_files := dirFiles.filter isStatesCsv
  let processed := get_processed_files log
  let new_files := csv_files.filter (fun f => ¬ processed.contains f)
  register_new_files log new_files

/-- `update_file_log`: UPDATE file_log SET status, row_count,
error_message, last_updated WHERE file_name = given; the omitted
arguments default to NULL in the Python signature. -/
def update_file_log (now : String) (log : FileLog) (file_name status : String)
    (row_count : Option Nat) (msg : Option String) : FileLog :=
  log.map (fun e =>
    if e.file_name = file_name then ⟨file_name, status, row_count, msg, some now⟩ else e)

/-! ### The loader batch loop (load_warehouse.py lines 196-207) -/

/-- The outcome handling of one file in the batch loop: on success mark
CLEAN_EXPORTED with the row count, on an exception mark FAILED with the
stringified error.  The outcome of `process_single_file` for each file is
an oracle parameter. -/
def close_file (now : String) (oracle : String → Except String Nat)
    (l1 : FileLog) (f : String) : FileLog :=
  match oracle f with
  | Except.ok n => update_file_log now l1 f "CLEAN_EXPORTED" (some n) none
  | Except.error e => update_file_log now l1 f "FAILED" none (some e)

/-- The per-file batch loop of the loader `main`: mark each file
PROCESSING, run it, close its ledger row, and continue with the rest
whatever the outcome.  Besides the final ledger, the run records, for
each file in order, the ledger state at the moment `process_single_file`
was invoked for it. -/
def run_batch (now : String) (oracle : String → Except String Nat) :
    FileLog → List String → FileLog × List (String × FileLog)
  | log, [] => (log, [])
  | log, f :: rest =>
      let l1 := update_file_log now log f "PROCESSING" none none
      let l2 := close_file now oracle l1 f
      let res := run_batch now oracle l2 rest
      (res.1, (f, l1) :: res.2)

/-! ### The extractor job log (extract_script.py lines 162-194) -/

/-- One `job_logs` row; `ended` records whether `end_time` has been set. -/
structure JobLogRow where
  log_id : Nat
  job_name : String
  status : String
  message : Option String
  ended : Bool
deriving Repr, DecidableEq

/-- The status of the job-log row with the given id. -/
def jobStatusOf (logs : List JobLogRow) (id : Nat) : Option String :=
  (logs.find? (fun r => r.log_id = id)).map (fun r => r.status)

/-- `log_job_start`: INSERT a STARTED row RETURNING log_id.  The generated
id is modelled as the row count, matching the monotonic DB sequence. -/
def log_job_start (logs : List JobLogRow) (job : String) : List JobLogRow × Nat :=
  (logs ++ [⟨logs.length, job, "STARTED", none, false⟩], logs.length)

/-- `log_job_end`: UPDATE the matching row with end_time, status and the
message; a falsy message (None or empty) becomes NULL, otherwise the
message is truncated to 500 characters. -/
def log_job_end (logs : List JobLogRow) (id : Nat) (status : String)
    (message : Option String) : List JobLogRow :=
  let final_message := match message with
    | some m => if m = "" then none else some (m.take 500)
    | none => none
  logs.map (fun r =>
    if r.log_id = id then ⟨r.log_id, r.job_name, status, final_message, true⟩ else r)

/-! ### save_data_to_csv (extract_script.py lines 196-243) -/

/-- An API snapshot: the decoded JSON object as an association list; the
value of the `states` key is the array of state rows (each row a list of
nullable fields). -/
abbrev Snapshot := List (String × List (List (Option String)))

/-- The `states` value of a snapshot, when present. -/
def statesOf (snap : Snapshot) : Option (List (List (Option String))) :=
  (snap.find? (fun p => p.1 = "states")).map (fun p => p.2)

/-- The fixed 17-column header of the raw CSV. -/
def csv_header : List String :=
  ["icao24", "callsign", "origin_country", "time_position", "last_contact",
   "longitude", "latitude", "baro_altitude", "on_ground", "velocity",
   "true_track", "vertical_rate", "sensors", "geo_altitude", "squawk",
   "spi", "position_source"]

/-- One data line of the raw CSV (a null field is written empty). -/
def rawCsvLine (row : List (Option String)) : String :=
  String.intercalate "," (row.map (fun c => c.getD ""))

/-- `save_data_to_csv`: return `None` without creating a file when the
snapshot is falsy, has no `states` key, or has an empty `states` array;
otherwise create the timestamped file and return its path together with
its content (the header line followed by one line per state row). -/
def save_data_to_csv (snap : Snapshot) (output_dir job_name timestamp : String) :
    Option (String × List String) :=
  if snap.isEmpty then none
  else match statesOf snap with
  | none => none
  | some states_array =>
      if states_array.isEmpty then none
      else
        let file_name := "states_" ++ job_name ++ "_" ++ timestamp ++ ".csv"
        let file_path := output_dir ++ "/" ++ file_name
        some (file_path, String.intercalate "," csv_header :: states_array.map rawCsvLine)

/-! ### The extractor main (extract_script.py lines 248-299) -/

/-- The environment of one extractor run: which of the fallible external
steps succeed, and what the external systems return.  DB log writes are
modelled as succeeding; the errors modelled are those of the pipeline
steps around them. -/
structure ExtractEnv where
  jobConfigOk : Bool
  sysConfigOk : Bool
  startOk : Bool
  tokenResult : Except String String
  apiResult : Except String Snapshot
  writeOk : Bool
deriving Repr

/-- The status and message with which the extractor pipeline closes its
job-log row: the token fetch, the API call and the CSV write each may
fail (caught by the top-level handler, which logs FAILED with the
stringified error); otherwise the job completes, with or without data. -/
def extractor_outcome (env : ExtractEnv)
    (output_dir job_name timestamp : String) : String × Option String :=
  match env.tokenResult with
  | Except.error e => ("FAILED", some e)
  | Except.ok _ =>
    match env.apiResult with
    | Except.error e => ("FAILED", some e)
    | Except.ok snap =>
        if (save_data_to_csv snap output_dir job_name timestamp).isSome ∧ ¬ env.writeOk then
          ("FAILED", some "WriteError")
        else
          match save_data_to_csv snap output_dir job_name timestamp with
          | some (path, _) => ("COMPLETED", some ("Tai thanh cong: " ++ path))
          | none => ("COMPLETED", some "Hoan thanh (Khong co du lieu moi).")

/-- The extractor pipeline after the job log has been opened: every path
through it closes the log row with its outcome. -/
def extractor_run_after_start (env : ExtractEnv) (logs : List JobLogRow)
    (log_id : Nat) (output_dir job_name timestamp : String) : List JobLogRow :=
  log_job_end logs log_id (extractor_outcome env output_dir job_name timestamp).1
    (extractor_outcome env output_dir job_name timestamp).2

/-- The extractor `main`: config reads and the start log may fail before a
log row exists (in which case the handler has no row to close); once the
STARTED row is in place the rest of the pipeline runs under the top-level
handler, which closes the row as FAILED on any error. -/
def extractor_main (env : ExtractEnv) (logs : List JobLogRow)
    (job_name output_dir timestamp : String) : List JobLogRow :=
  if env.jobConfigOk then
    if env.sysConfigOk then
      if env.startOk then
        let started := log_job_start logs job_name
        extractor_run_after_start env started.1 started.2 output_dir job_name timestamp
      else logs
    else logs
  else logs

/-! ### get_access_token (extract_script.py lines 80-107) -/

/-- The classified failure of `get_access_token`: the spec taxonomy labels
the HTTPError carrying status 401 an AuthenticationError (it is re-raised
with a targeted hint), every other raised HTTPError an HttpError, and a
token response body without an access_token key raises a KeyError. -/
inductive TokenError where
  | authenticationError
  | httpError (status : Nat)
  | keyError
deriving Repr, DecidableEq

/-- `Response.raise_for_status` of the requests library: an HTTPError
carrying the response status is raised exactly when the status is a 4xx
or 5xx code. -/
def raise_for_status (status : Nat) : Option Nat :=
  if 400 ≤ status ∧ status < 600 then some status else none

/-- `get_access_token` on a token-endpoint response with the given status
code and decoded JSON body: raise_for_status first, classifying a 401 as
an AuthenticationError; then extract the access_token from the body. -/
def get_access_token (status : Nat) (body : List (String × String)) :
    Except TokenError String :=
  match raise_for_status status with
  | some s => Except.error (if s = 401 then .authenticationError else .httpError s)
  | none =>
      match (body.find? (fun p => p.1 = "access_token")).map (fun p => p.2) with
      | some tok => Except.ok tok
      | none => Except.error .keyError

/-! ### Specification data -/

/-- The invariant of the cleaned-output file through the chunk loop:
either nothing has been written yet (`is_first_chunk` still set, no rows
counted), or the file holds the header line followed by one line per
counted row. -/
def goodLoadState (st : LoadState) : Prop :=
  (st.outFile = none ∧ st.isFirst = true ∧ st.total = 0) ∨
  (∃ lines, st.outFile = some lines ∧ st.isFirst = false ∧
    lines.length = st.total + 1 ∧ lines.head? = some headerLine)

/-- The one-row chunk of the spec example: `longitude="12.3"`,
`position_source="abc"`, `time_position="1700000000"`, `on_ground="TRUE"`
(cells listed in `accessedCols` order). -/
def exampleFrame : RawFrame :=
  ⟨accessedCols,
   [[some "12.3", none, none, none, none, none, none, some "abc",
     some "1700000000", none, some "TRUE", none]]⟩

/-- The cleaned row the spec example must produce: float 12.3, the epoch
1700000000 timestamp, boolean true, null position_source. -/
def exampleCleanRow : CleanRow :=
  { load_timestamp := none, file_source := none, icao24 := none,
    callsign := none, origin_country := none,
    time_position := some (mkRat 1700000000 1), last_contact := none,
    longitude := some (mkRat 123 10), latitude := none, baro_altitude := none,
    on_ground := some true, velocity := none, true_track := none,
    vertical_rate := none, sensors := none, geo_altitude := none,
    squawk := none, spi := none, position_source := none }

/-! ### Helper lemmas -/

theorem mapRows_length {g : List (Option String) → Except String CleanRow} :
    ∀ {rs : List (List (Option String))} {out : List CleanRow},
      mapRows g rs = Except.ok out → out.length = rs.length := by
  intro rs
  induction rs with
  | nil =>
      intro out h
      simp only [mapRows, Except.ok.injEq] at h
      subst h; rfl
  | cons r rs ih =>
      intro out h
      cases hg : g r with
      | error e =>
          simp only [mapRows, hg] at h
          exact Except.noConfusion h
      | ok c =>
          cases hm : mapRows g rs with
          | error e =>
              simp only [mapRows, hg, hm] at h
              exact Except.noConfusion h
          | ok cs =>
              simp only [mapRows, hg, hm, Except.ok.injEq] at h
              subst h
              simp [ih hm]

theorem transform_chunk_ok_length {f : RawFrame} {out : List CleanRow}
    (h : transform_chunk f = Except.ok out) : out.length = f.rows.length := by
  unfold transform_chunk at h
  split at h
  · exact mapRows_length h
  · exact Except.noConfusion h

/-- **C10**: `transformChunk` never drops, filters, or adds rows: whenever
it returns a cleaned frame, that frame has exactly as many rows as the
input chunk. -/
theorem transform_chunk_row_count :
    ∀ (f : RawFrame) (out : List CleanRow),
      transform_chunk f = Except.ok out → out.length = f.rows.length :=
  fun _ _ h => transform_chunk_ok_length h

theorem transform_chunk_row_count_witness :
    transform_chunk ⟨accessedCols, [List.replicate 12 none]⟩ =
        Except.ok [⟨none, none, none, none, none, none, none, none, none, none,
          none, none, none, none, none, none, none, none, none⟩] ∧
      ([(⟨none, none, none, none, none, none, none, none, none, none,
          none, none, none, none, none, none, none, none, none⟩ : CleanRow)]).length =
        (RawFrame.mk accessedCols [List.replicate 12 none]).rows.length :=
  ⟨by rfl, transform_chunk_row_count _ _ (by rfl)⟩

/-- **C5**: `transform_chunk` coerces `on_ground` and `spi` cells with a
case-insensitive match: the result is `True` exactly when the lower-cased
cell is `"true"`, `False` exactly when it is `"false"`, and null for
every other value — an unknown value is never treated as `False`. -/
theorem coerceBool_policy :
    ∀ c : Option String,
      (coerceBool c = some true ↔ ∃ s, c = some s ∧ lowerStr s = "true") ∧
      (coerceBool c = some false ↔ ∃ s, c = some s ∧ lowerStr s = "false") ∧
      (∀ s, c = some s → lowerStr s ≠ "true" → lowerStr s ≠ "false" →
        coerceBool c = none) := by
  intro c
  cases c with
  | none =>
      refine ⟨⟨fun h => absurd h (by decide), ?_⟩,
              ⟨fun h => absurd h (by decide), ?_⟩, ?_⟩
      · rintro ⟨s, hs, -⟩; cases hs
      · rintro ⟨s, hs, -⟩; cases hs
      · intro s hs; cases hs
  | some s =>
      by_cases ht : lowerStr s = "true"
      · refine ⟨⟨fun _ => ⟨s, rfl, ht⟩, fun _ => ?_⟩, ⟨fun h => ?_, ?_⟩, ?_⟩
        · simp [coerceBool, ht]
        · simp [coerceBool, ht] at h
        · rintro ⟨s', hs', hf⟩
          obtain rfl : s = s' := Option.some.inj hs'
          rw [ht] at hf
          exact absurd hf (by decide)
        · intro s' hs' hT _
          obtain rfl : s = s' := Option.some.inj hs'
          exact absurd ht hT
      · by_cases hf : lowerStr s = "false"
        · refine ⟨⟨fun h => ?_, ?_⟩, ⟨fun _ => ⟨s, rfl, hf⟩, fun _ => ?_⟩, ?_⟩
          · simp [coerceBool, ht, hf] at h
          · rintro ⟨s', hs', hT⟩
            obtain rfl : s = s' := Option.some.inj hs'
            exact absurd hT ht
          · simp [coerceBool, ht, hf]
          · intro s' hs' _ hF
            obtain rfl : s = s' := Option.some.inj hs'
            exact absurd hf hF
        · refine ⟨⟨fun h => ?_, ?_⟩, ⟨fun h => ?_, ?_⟩, ?_⟩
          · simp [coerceBool, ht, hf] at h
          · rintro ⟨s', hs', hT⟩
            obtain rfl : s = s' := Option.some.inj hs'
            exact absurd hT ht
          · simp [coerceBool, ht, hf] at h
          · rintro ⟨s', hs', hF⟩
            obtain rfl : s = s' := Option.some.inj hs'
            exact absurd hF hf
          · intro _ _ _ _
            simp [coerceBool, ht, hf]

theorem coerceBool_policy_witness :
    coerceBool (some "TrUe") = some true ∧ coerceBool (some "noidea") = none :=
  ⟨(coerceBool_policy (some "TrUe")).1.mpr ⟨"TrUe", rfl, by decide⟩,
   (coerceBool_policy (some "noidea")).2.2 "noidea" rfl (by decide) (by decide)⟩

/-- **C8** (counterexample): the claim says every non-2xx status other than
401 fails with an HttpError, but `raise_for_status` only raises for 4xx
and 5xx codes: a 304 response whose body carries an access_token makes
`get_access_token` return the token although 304 is not a 2xx status. -/
theorem get_access_token_304_counterexample :
    get_access_token 304 [("access_token", "tok")] = Except.ok "tok" ∧
      ¬ (200 ≤ 304 ∧ 304 < 300) :=
  ⟨rfl, by decide⟩

/-- **C8** (amended): `get_access_token` fails with an AuthenticationError
when the token endpoint status is 401, and with an HttpError (distinct
from AuthenticationError) for every other 4xx or 5xx status; statuses
outside 400..599 do not make `raise_for_status` raise. -/
theorem get_access_token_classification :
    ∀ (status : Nat) (body : List (String × String)),
      (status = 401 →
        get_access_token status body = Except.error TokenError.authenticationError) ∧
      (400 ≤ status → status < 600 → status ≠ 401 →
        get_access_token status body = Except.error (TokenError.httpError status)) := by
  intro status body
  constructor
  · rintro rfl
    rfl
  · intro h4 h6 hne
    unfold get_access_token raise_for_status
    rw [if_pos (⟨h4, h6⟩ : 400 ≤ status ∧ status < 600)]
    show Except.error
        (if status = 401 then TokenError.authenticationError
         else TokenError.httpError status) = _
    rw [if_neg hne]

theorem get_access_token_classification_witness :
    get_access_token 401 [] = Except.error TokenError.authenticationError ∧
      get_access_token 503 [] = Except.error (TokenError.httpError 503) :=
  ⟨(get_access_token_classification 401 []).1 rfl,
   (get_access_token_classification 503 []).2 (by decide) (by decide) (by decide)⟩

/-- **C9**: `update_file_log` writes all four columns status, row_count,
error_message and last_updated of the matching row, so a call that omits
row_count or the message overwrites the previous values with null, and
marking CLEAN_EXPORTED clears any earlier error_message; rows for other
files are untouched. -/
theorem update_file_log_sets_all_columns :
    ∀ (now : String) (log : FileLog) (fname st : String) (rc : Option Nat)
      (m : Option String) (e : FileLogEntry),
      e ∈ update_file_log now log fname st rc m →
      (e.file_name = fname → e = ⟨fname, st, rc, m, some now⟩) ∧
      (e.file_name ≠ fname → e ∈ log) := by
  intro now log fname st rc m e he
  unfold update_file_log at he
  rw [List.mem_map] at he
  obtain ⟨a, ha, hae⟩ := he
  by_cases h : a.file_name = fname
  · rw [if_pos h] at hae
    subst hae
    exact ⟨fun _ => rfl, fun hne => absurd rfl hne⟩
  · rw [if_neg h] at hae
    subst hae
    exact ⟨fun hfn => absurd hfn h, fun _ => ha⟩

theorem update_file_log_sets_all_columns_witness :
    (⟨"f", "PROCESSING", none, none, some "NOW"⟩ : FileLogEntry) ∈
        update_file_log "NOW" [⟨"f", "CLEAN_EXPORTED", some 5, some "err", some "T"⟩]
          "f" "PROCESSING" none none ∧
      (⟨"f", "PROCESSING", none, none, some "NOW"⟩ : FileLogEntry) =
        ⟨"f", "PROCESSING", none, none, some "NOW"⟩ :=
  ⟨by decide,
   (update_file_log_sets_all_columns "NOW"
      [⟨"f", "CLEAN_EXPORTED", some 5, some "err", some "T"⟩] "f" "PROCESSING"
      none none ⟨"f", "PROCESSING", none, none, some "NOW"⟩ (by decide)).1 rfl⟩

/-! ### Lemmas on registration -/

theorem containsFile_insert {log : FileLog} {f g : String}
    (h : containsFile log g = true) : containsFile (insertNewFile log f) g = true := by
  unfold insertNewFile
  split
  · exact h
  · unfold containsFile at h ⊢
    rw [List.any_append, h, Bool.true_or]

theorem containsFile_insert_self (log : FileLog) (f : String) :
    containsFile (insertNewFile log f) f = true := by
  unfold insertNewFile
  by_cases h : containsFile log f
  · rw [if_pos h]; exact h
  · rw [if_neg h]
    unfold containsFile
    rw [List.any_append]
    simp

theorem insertNewFile_of_contains {log : FileLog} {f : String}
    (h : containsFile log f = true) : insertNewFile log f = log := by
  unfold insertNewFile
  rw [if_pos h]

theorem register_contains_of_contains {g : String} :
    ∀ (fs : List String) (log : FileLog), containsFile log g = true →
      containsFile (register_new_files log fs) g = true := by
  intro fs
  induction fs with
  | nil => intro log h; exact h
  | cons f fs ih =>
      intro log h
      exact ih (insertNewFile log f) (containsFile_insert h)

theorem register_contains_mem :
    ∀ (fs : List String) (log : FileLog) (f : String), f ∈ fs →
      containsFile (register_new_files log fs) f = true := by
  intro fs
  induction fs with
  | nil => intro log f h; exact absurd h (List.not_mem_nil f)
  | cons x fs ih =>
      intro log f h
      rcases List.mem_cons.mp h with rfl | h
      · exact register_contains_of_contains fs _ (containsFile_insert_self log f)
      · exact ih _ f h

theorem register_eq_of_all_contained :
    ∀ (fs : List String) (log : FileLog),
      (∀ f ∈ fs, containsFile log f = true) → register_new_files log fs = log := by
  intro fs
  induction fs with
  | nil => intro log _; rfl
  | cons f fs ih =>
      intro log h
      show register_new_files (insertNewFile log f) fs = log
      rw [insertNewFile_of_contains (h f (List.mem_cons_self f fs))]
      exact ih log (fun g hg => h g (List.mem_cons_of_mem f hg))

theorem insertNewFile_append (log : FileLog) (f : String) :
    ∃ tail, insertNewFile log f = log ++ tail ∧ ∀ e ∈ tail, e.status = "NEW" := by
  unfold insertNewFile
  by_cases h : containsFile log f
  · refine ⟨[], ?_, ?_⟩
    · rw [if_pos h, List.append_nil]
    · intro e he; exact absurd he (List.not_mem_nil e)
  · refine ⟨[⟨f, "NEW", none, none, none⟩], ?_, ?_⟩
    · rw [if_neg h]
    · intro e he
      rw [List.mem_singleton] at he
      subst he; rfl

theorem register_append :
    ∀ (fs : List String) (log : FileLog),
      ∃ tail, register_new_files log fs = log ++ tail ∧ ∀ e ∈ tail, e.status = "NEW" := by
  intro fs
  induction fs with
  | nil =>
      intro log
      exact ⟨[], by rw [List.append_nil]; rfl, fun e he => absurd he (List.not_mem_nil e)⟩
  | cons f fs ih =>
      intro log
      obtain ⟨t1, h1, hs1⟩ := insertNewFile_append log f
      obtain ⟨t2, h2, hs2⟩ := ih (insertNewFile log f)
      refine ⟨t1 ++ t2, ?_, ?_⟩
      · show register_new_files (insertNewFile log f) fs = _
        rw [h2, h1, List.append_assoc]
      · intro e he
        rcases List.mem_append.mp he with h | h
        exacts [hs1 e h, hs2 e h]

theorem contains_of_mem_processed {log : FileLog} {f : String}
    (h : f ∈ get_processed_files log) : containsFile log f = true := by
  unfold get_processed_files at h
  rw [List.mem_map] at h
  obtain ⟨e, he, rfl⟩ := h
  rw [List.mem_filter] at he
  unfold containsFile
  rw [List.any_eq_true]
  exact ⟨e, he.1, by simp⟩

theorem discover_contains (d : List String) (log : FileLog) :
    ∀ f ∈ d.filter isStatesCsv,
      containsFile (discover_and_register d log) f = true := by
  intro f hf
  unfold discover_and_register
  by_cases hp : (get_processed_files log).contains f
  · have hmem : f ∈ get_processed_files log := by
      rw [List.contains_iff_exists_mem_beq] at hp
      obtain ⟨a, ha, hba⟩ := hp
      obtain rfl : f = a := beq_iff_eq.mp hba
      exact ha
    exact register_contains_of_contains _ _ (contains_of_mem_processed hmem)
  · apply register_contains_mem
    rw [List.mem_filter]
    refine ⟨hf, ?_⟩
    simpa using hp

theorem discover_eq_of_all_known (d : List String) (L : FileLog)
    (h : ∀ f ∈ d.filter isStatesCsv, containsFile L f = true) :
    discover_and_register d L = L := by
  unfold discover_and_register
  apply register_eq_of_all_contained
  intro f hf
  rw [List.mem_filter] at hf
  exact h f hf.1

/-- **C2**: running discovery + registration a second time on an unchanged
raw-data directory and unchanged ledger leaves file_log unchanged, and a
single run only appends NEW rows — it never inserts a duplicate of a
known file name and never changes an existing row (in particular no row
regresses from CLEAN_EXPORTED or FAILED back to NEW). -/
theorem discover_and_register_idempotent :
    ∀ (dirFiles : List String) (log : FileLog),
      discover_and_register dirFiles (discover_and_register dirFiles log) =
        discover_and_register dirFiles log ∧
      ∃ tail, discover_and_register dirFiles log = log ++ tail ∧
        ∀ e ∈ tail, e.status = "NEW" := by
  intro d log
  constructor
  · exact discover_eq_of_all_known d (discover_and_register d log)
      (discover_contains d log)
  · exact register_append _ log

theorem discover_and_register_idempotent_witness :
    discover_and_register ["states_a.csv", "notes.txt"]
        (discover_and_register ["states_a.csv", "notes.txt"] []) =
      discover_and_register ["states_a.csv", "notes.txt"] [] :=
  (discover_and_register_idempotent ["states_a.csv", "notes.txt"] []).1

/-! ### Lemmas on file_log updates and the batch loop -/

theorem containsFile_update (now : String) (log : FileLog) (fname st : String)
    (rc : Option Nat) (m : Option String) (g : String) :
    containsFile (update_file_log now log fname st rc m) g = containsFile log g := by
  unfold containsFile update_file_log
  rw [List.any_map]
  congr 1
  funext a
  by_cases h : a.file_name = fname
  · simp [h]
  · simp [h]

theorem rowOf_update_self {now fname st : String} {rc : Option Nat} {m : Option String} :
    ∀ {log : FileLog}, containsFile log fname = true →
      rowOf (update_file_log now log fname st rc m) fname =
        some ⟨fname, st, rc, m, some now⟩ := by
  intro log
  induction log with
  | nil => intro h; simp [containsFile] at h
  | cons a l ih =>
      intro h
      by_cases ha : a.file_name = fname
      · simp [update_file_log, rowOf, List.find?_cons, ha]
      · have h' : containsFile l fname = true := by
          unfold containsFile at h ⊢
          rw [List.any_cons] at h
          cases hd : decide (a.file_name = fname) with
          | true => exact absurd (of_decide_eq_true hd) ha
          | false => rw [hd, Bool.false_or] at h; exact h
        simpa [update_file_log, rowOf, List.find?_cons, ha] using ih h'

theorem rowOf_update_other {now fname st : String} {rc : Option Nat}
    {m : Option String} {g : String} (hg : g ≠ fname) :
    ∀ (log : FileLog),
      rowOf (update_file_log now log fname st rc m) g = rowOf log g := by
  intro log
  induction log with
  | nil => rfl
  | cons a l ih =>
      by_cases ha : a.file_name = fname
      · have hag : ¬ a.file_name = g := fun hc => hg (hc ▸ ha.symm ▸ rfl)
        have hfg : ¬ (fname = g) := fun hc => hg hc.symm
        simpa [update_file_log, rowOf, List.find?_cons, ha, hag, hfg] using ih
      · by_cases hag : a.file_name = g
        · simp [update_file_log, rowOf, List.find?_cons, ha, hag, hg]
        · simpa [update_file_log, rowOf, List.find?_cons, ha, hag] using ih

theorem containsFile_close (now : String) (oracle : String → Except String Nat)
    (l1 : FileLog) (f g : String) :
    containsFile (close_file now oracle l1 f) g = containsFile l1 g := by
  unfold close_file
  cases oracle f with
  | ok n => exact containsFile_update now l1 f "CLEAN_EXPORTED" (some n) none g
  | error e => exact containsFile_update now l1 f "FAILED" none (some e) g

theorem rowOf_close_failed {now : String} {oracle : String → Except String Nat}
    {l1 : FileLog} {f : String} {err : String} (ho : oracle f = Except.error err)
    (hc : containsFile l1 f = true) :
    rowOf (close_file now oracle l1 f) f = some ⟨f, "FAILED", none, some err, some now⟩ := by
  unfold close_file
  rw [ho]
  exact rowOf_update_self hc

theorem run_batch_files (now : String) (oracle : String → Except String Nat) :
    ∀ (files : List String) (log : FileLog),
      ((run_batch now oracle log files).2).map Prod.fst = files := by
  intro files
  induction files with
  | nil => intro log; rfl
  | cons f rest ih =>
      intro log
      show f :: ((run_batch now oracle _ rest).2).map Prod.fst = f :: rest
      rw [ih]

theorem run_batch_rowOf_notmem {now : String} {oracle : String → Except String Nat}
    {g : String} :
    ∀ {files : List String}, g ∉ files → ∀ (log : FileLog),
      rowOf ((run_batch now oracle log files).1) g = rowOf log g := by
  intro files
  induction files with
  | nil => intro _ log; rfl
  | cons f rest ih =>
      intro hg log
      have hgf : g ≠ f := fun hc => hg (hc ▸ List.mem_cons_self f rest)
      have hgr : g ∉ rest := fun hc => hg (List.mem_cons_of_mem f hc)
      show rowOf ((run_batch now oracle (close_file now oracle
        (update_file_log now log f "PROCESSING" none none) f) rest).1) g = rowOf log g
      rw [ih hgr]
      unfold close_file
      cases oracle f with
      | ok n => rw [rowOf_update_other hgf, rowOf_update_other hgf]
      | error e => rw [rowOf_update_other hgf, rowOf_update_other hgf]

theorem run_batch_processing_recorded (now : String)
    (oracle : String → Except String Nat) :
    ∀ (files : List String) (log : FileLog),
      (∀ f ∈ files, containsFile log f = true) →
      ∀ p ∈ (run_batch now oracle log files).2,
        rowOf p.2 p.1 = some ⟨p.1, "PROCESSING", none, none, some now⟩ := by
  intro files
  induction files with
  | nil => intro log _ p hp; exact absurd hp (List.not_mem_nil p)
  | cons f rest ih =>
      intro log hall p hp
      have hstep : (run_batch now oracle log (f :: rest)).2 =
          (f, update_file_log now log f "PROCESSING" none none) ::
            (run_batch now oracle (close_file now oracle
              (update_file_log now log f "PROCESSING" none none) f) rest).2 := rfl
      rw [hstep] at hp
      rcases List.mem_cons.mp hp with rfl | hp
      · exact rowOf_update_self (hall f (List.mem_cons_self f rest))
      · refine ih _ ?_ p hp
        intro g hg
        rw [containsFile_close, containsFile_update]
        exact hall g (List.mem_cons_of_mem f hg)

theorem run_batch_failed (now : String) (oracle : String → Except String Nat) :
    ∀ (files : List String) (log : FileLog),
      (∀ f ∈ files, containsFile log f = true) →
      ∀ f ∈ files, ∀ err, oracle f = Except.error err →
        rowOf (run_batch now oracle log files).1 f =
          some ⟨f, "FAILED", none, some err, some now⟩ := by
  intro files
  induction files with
  | nil => intro log _ f hf; exact absurd hf (List.not_mem_nil f)
  | cons x rest ih =>
      intro log hall f hf err ho
      have hstep : (run_batch now oracle log (x :: rest)).1 =
          (run_batch now oracle (close_file now oracle
            (update_file_log now log x "PROCESSING" none none) x) rest).1 := rfl
      rw [hstep]
      by_cases hfr : f ∈ rest
      · refine ih _ ?_ f hfr err ho
        intro g hg
        rw [containsFile_close, containsFile_update]
        exact hall g (List.mem_cons_of_mem x hg)
      · obtain rfl : f = x := by
          rcases List.mem_cons.mp hf with h | h
          · exact h
          · exact absurd h hfr
        rw [run_batch_rowOf_notmem hfr]
        apply rowOf_close_failed ho
        rw [containsFile_update]
        exact hall f (List.mem_cons_self f rest)

/-- **C3**: in the loader batch loop, every selected file is processed in
order; the ledger state at the moment each file is handed to
`process_single_file` has that file marked PROCESSING; and when
processing a file raises, its ledger row ends as FAILED with the
stringified exception as a non-null error_message while the loop still
reaches every other selected file. -/
theorem loader_batch_loop_spec :
    ∀ (now : String) (oracle : String → Except String Nat) (files : List String)
      (log : FileLog),
      (∀ f ∈ files, containsFile log f = true) →
      ((run_batch now oracle log files).2.map Prod.fst = files) ∧
      (∀ p ∈ (run_batch now oracle log files).2,
        rowOf p.2 p.1 = some ⟨p.1, "PROCESSING", none, none, some now⟩) ∧
      (∀ f ∈ files, ∀ err, oracle f = Except.error err →
        rowOf (run_batch now oracle log files).1 f =
          some ⟨f, "FAILED", none, some err, some now⟩) :=
  fun now oracle files log h =>
    ⟨run_batch_files now oracle files log,
     run_batch_processing_recorded now oracle files log h,
     run_batch_failed now oracle files log h⟩

theorem loader_batch_loop_spec_witness :
    rowOf (run_batch "NOW"
        (fun f => if f = "b" then Except.error "boom" else Except.ok 3)
        [⟨"a", "NEW", none, none, none⟩, ⟨"b", "NEW", none, none, none⟩]
        ["a", "b"]).1 "b" =
      some ⟨"b", "FAILED", none, some "boom", some "NOW"⟩ :=
  (loader_batch_loop_spec "NOW"
      (fun f => if f = "b" then Except.error "boom" else Except.ok 3)
      ["a", "b"]
      [⟨"a", "NEW", none, none, none⟩, ⟨"b", "NEW", none, none, none⟩]
      (by decide)).2.2 "b" (by decide) "boom" rfl

/-! ### Raw writer and extractor log closure -/

/-- **C6**: `save_data_to_csv` returns null for the empty snapshot, for an
empty `states` array and for a missing `states` key, creating no file;
for a non-empty `states` array it returns a file path whose file content
is the header line followed by one line per state row. -/
theorem save_data_to_csv_spec :
    ∀ (output_dir job_name timestamp : String),
      save_data_to_csv [] output_dir job_name timestamp = none ∧
      save_data_to_csv [("states", [])] output_dir job_name timestamp = none ∧
      (∀ snap : Snapshot, statesOf snap = none →
        save_data_to_csv snap output_dir job_name timestamp = none) ∧
      (∀ (snap : Snapshot) (states_array : List (List (Option String))),
        statesOf snap = some states_array → states_array ≠ [] →
        ∃ path lines,
          save_data_to_csv snap output_dir job_name timestamp = some (path, lines) ∧
          lines.length = states_array.length + 1) := by
  intro d j t
  refine ⟨rfl, rfl, ?_, ?_⟩
  · intro snap h
    cases snap with
    | nil => rfl
    | cons p ps =>
        unfold save_data_to_csv
        rw [h]
        rfl
  · intro snap states_array h hne
    have hsnap : snap.isEmpty = false := by
      cases snap with
      | nil => simp [statesOf] at h
      | cons p ps => rfl
    have harr : states_array.isEmpty = false := by
      cases states_array with
      | nil => exact absurd rfl hne
      | cons r rs => rfl
    refine ⟨d ++ "/" ++ ("states_" ++ j ++ "_" ++ t ++ ".csv"),
      String.intercalate "," csv_header :: states_array.map rawCsvLine, ?_, ?_⟩
    · simp only [save_data_to_csv, hsnap, h, harr]
      simp
    · simp [List.length_map]

theorem save_data_to_csv_spec_witness :
    save_data_to_csv [("time", [])] "d" "j" "t" = none :=
  (save_data_to_csv_spec "d" "j" "t").2.2.1 [("time", [])] rfl

theorem jobStatusOf_end_self :
    ∀ (logs : List JobLogRow) (id : Nat) (st : String) (m : Option String),
      (jobStatusOf logs id).isSome = true →
      jobStatusOf (log_job_end logs id st m) id = some st := by
  intro logs id st m
  induction logs with
  | nil => intro h; simp [jobStatusOf] at h
  | cons r l ih =>
      intro h
      by_cases hr : r.log_id = id
      · simp [log_job_end, jobStatusOf, List.find?_cons, hr]
      · have h' : (jobStatusOf l id).isSome = true := by
          simpa [jobStatusOf, List.find?_cons, hr] using h
        simpa [log_job_end, jobStatusOf, List.find?_cons, hr] using ih h'

theorem log_job_start_status :
    ∀ (logs : List JobLogRow) (job : String),
      (∀ r ∈ logs, r.log_id ≠ logs.length) →
      jobStatusOf (log_job_start logs job).1 (log_job_start logs job).2 =
        some "STARTED" := by
  intro logs job h
  unfold log_job_start jobStatusOf
  rw [List.find?_append]
  have h1 : logs.find? (fun r => r.log_id = logs.length) = none := by
    rw [List.find?_eq_none]
    intro r hr
    simp [h r hr]
  rw [h1]
  simp [List.find?_cons]

theorem extractor_outcome_fst :
    ∀ (env : ExtractEnv) (d j t : String),
      (extractor_outcome env d j t).1 = "COMPLETED" ∨
        (extractor_outcome env d j t).1 = "FAILED" := by
  intro env d j t
  unfold extractor_outcome
  split
  · exact Or.inr rfl
  · split
    · exact Or.inr rfl
    · split
      · exact Or.inr rfl
      · split
        · exact Or.inl rfl
        · exact Or.inl rfl

/-- **C7**: when the extractor opens a job-log row, that row reads STARTED
immediately after `log_job_start`, and after `main` returns the row reads
COMPLETED or FAILED — never still STARTED — wherever inside the pipeline
(token fetch, API call, CSV write) an error occurred. -/
theorem extractor_log_closed :
    ∀ (env : ExtractEnv) (logs : List JobLogRow) (job output_dir timestamp : String),
      env.jobConfigOk = true → env.sysConfigOk = true → env.startOk = true →
      (∀ r ∈ logs, r.log_id ≠ logs.length) →
      jobStatusOf (log_job_start logs job).1 (log_job_start logs job).2 =
        some "STARTED" ∧
      ∃ st, jobStatusOf (extractor_main env logs job output_dir timestamp)
          (log_job_start logs job).2 = some st ∧
        (st = "COMPLETED" ∨ st = "FAILED") := by
  intro env logs job d t h1 h2 h3 hids
  have hstart := log_job_start_status logs job hids
  refine ⟨hstart, ?_⟩
  have hsome : (jobStatusOf (log_job_start logs job).1
      (log_job_start logs job).2).isSome = true := by
    rw [hstart]; rfl
  unfold extractor_main
  rw [h1, h2, h3, if_pos rfl, if_pos rfl, if_pos rfl]
  exact ⟨(extractor_outcome env d job t).1,
    jobStatusOf_end_self _ _ _ _ hsome, extractor_outcome_fst env d job t⟩

theorem extractor_log_closed_witness :
    jobStatusOf (log_job_start [] "j").1 (log_job_start [] "j").2 =
      some "STARTED" :=
  (extractor_log_closed ⟨true, true, true, Except.error "401", Except.ok [], true⟩
      [] "j" "d" "t" rfl rfl rfl (by decide)).1

/-! ### Transform coercion behaviour -/

theorem cleanRowOf_ok {cols : List String} {r : List (Option String)}
    (h : (coerceInt64 (cellOf cols r "position_source")).isOk = true) :
    ∃ c, cleanRowOf cols r = Except.ok c := by
  unfold cleanRowOf
  cases hc : coerceInt64 (cellOf cols r "position_source") with
  | error e => rw [hc] at h; exact Bool.noConfusion h
  | ok v => exact ⟨_, rfl⟩

theorem mapRows_ok {cols : List String} :
    ∀ (rs : List (List (Option String))),
      (∀ r ∈ rs, (coerceInt64 (cellOf cols r "position_source")).isOk = true) →
      ∃ out, mapRows (cleanRowOf cols) rs = Except.ok out := by
  intro rs
  induction rs with
  | nil => intro _; exact ⟨[], rfl⟩
  | cons r rest ih =>
      intro h
      obtain ⟨c, hc⟩ := cleanRowOf_ok (h r (List.mem_cons_self r rest))
      obtain ⟨out, hout⟩ := ih (fun g hg => h g (List.mem_cons_of_mem r hg))
      exact ⟨c :: out, by simp only [mapRows, hc, hout]⟩

/-- **C4**: `transform_chunk` coerces the seven numeric fields to floats,
`position_source` to a nullable integer, and `time_position` /
`last_contact` from epoch seconds to timestamps; whenever the accessed
columns are present and no `position_source` cell carries a non-integral
numeral, the transform succeeds — unparsable values degrade to null
without raising.  On the spec example row (`longitude="12.3"`,
`time_position="1700000000"`, `position_source="abc"`, `on_ground="TRUE"`)
it yields 123/10, epoch 1700000000, null and true respectively. -/
theorem transform_chunk_coercions :
    (∀ f : RawFrame,
      accessedCols.all (fun c => f.cols.contains c) = true →
      (∀ r ∈ f.rows,
        (coerceInt64 (cellOf f.cols r "position_source")).isOk = true) →
      ∃ out, transform_chunk f = Except.ok out) ∧
    transform_chunk exampleFrame = Except.ok [exampleCleanRow] := by
  constructor
  · intro f hcols hps
    unfold transform_chunk
    rw [hcols, if_pos rfl]
    exact mapRows_ok f.rows hps
  · rfl

theorem transform_chunk_coercions_witness :
    accessedCols.all (fun c => exampleFrame.cols.contains c) = true ∧
    (∀ r ∈ exampleFrame.rows,
      (coerceInt64 (cellOf exampleFrame.cols r "position_source")).isOk = true) ∧
    ∃ out, transform_chunk exampleFrame = Except.ok out :=
  ⟨by decide, by decide,
   (transform_chunk_coercions).1 exampleFrame (by decide) (by decide)⟩

/-! ### The chunk loop invariant -/

theorem setCol_rows_length (f : RawFrame) (c : String) (v : Option String) :
    (setCol f c v).rows.length = f.rows.length := by
  unfold setCol
  split
  · simp
  · simp

theorem stamp_rows_length (fn now : String) (chunk : RawFrame) :
    (stamp fn now chunk).rows.length = chunk.rows.length := by
  unfold stamp
  rw [setCol_rows_length, setCol_rows_length]

theorem processChunks_spec :
    ∀ (fn now : String) (chunks : List RawFrame) (st res : LoadState),
      processChunks fn now chunks st = Except.ok res →
      res.total = st.total + (chunks.map (fun c => c.rows.length)).sum ∧
      res.staging.length =
        st.staging.length + (chunks.map (fun c => c.rows.length)).sum ∧
      (goodLoadState st → goodLoadState res) := by
  intro fn now chunks
  induction chunks with
  | nil =>
      intro st res h
      simp only [processChunks, Except.ok.injEq] at h
      subst h
      exact ⟨by simp, by simp, id⟩
  | cons chunk rest ih =>
      intro st res h
      unfold processChunks at h
      by_cases he : chunk.rows.isEmpty
      · rw [if_pos he] at h
        have hlen : chunk.rows.length = 0 := by
          rw [List.isEmpty_iff] at he
          rw [he]; rfl
        obtain ⟨h1, h2, h3⟩ := ih st res h
        refine ⟨?_, ?_, h3⟩
        · simp only [List.map_cons, List.sum_cons, hlen]
          omega
        · simp only [List.map_cons, List.sum_cons, hlen]
          omega
      · rw [if_neg he] at h
        cases ht : transform_chunk (stamp fn now chunk) with
        | error e =>
            simp only [ht] at h
            exact Except.noConfusion h
        | ok clean =>
            simp only [ht] at h
            obtain ⟨h1, h2, h3⟩ := ih _ res h
            have hclean : clean.length = chunk.rows.length := by
              rw [transform_chunk_ok_length ht, stamp_rows_length]
            refine ⟨?_, ?_, ?_⟩
            · simp only [List.map_cons, List.sum_cons]
              simp only at h1
              omega
            · simp only [List.map_cons, List.sum_cons]
              simp only [List.length_append, stamp_rows_length] at h2
              omega
            · intro hgood
              apply h3
              right
              refine ⟨_, rfl, rfl, ?_, ?_⟩
              · cases hgood with
                | inl hg =>
                    obtain ⟨ho, hf, htot⟩ := hg
                    rw [ho, hf, htot]
                    simp [hclean]
                | inr hg =>
                    obtain ⟨lines, ho, hf, hlen, hhead⟩ := hg
                    rw [ho, hf]
                    simp only [Option.getD_some, if_neg Bool.false_ne_true,
                      List.append_nil, List.length_append, List.length_map, hclean]
                    omega
              · cases hgood with
                | inl hg =>
                    obtain ⟨ho, hf, _⟩ := hg
                    rw [ho, hf]
                    simp
                | inr hg =>
                    obtain ⟨lines, ho, hf, hlen, hhead⟩ := hg
                    rw [ho, hf]
                    simp only [Option.getD_some, if_neg Bool.false_ne_true,
                      List.append_nil]
                    rw [List.head?_append, hhead]
                    rfl

/-- **C1**: `process_single_file` first discards any pre-existing
cleaned-output file (its result does not depend on it), returns the total
number of data rows across all chunks, appends exactly that many stamped
rows to the staging table, and the cleaned-output file it produces holds
exactly one header line followed by one line per data row (no file is
created when there are no data rows). -/
theorem process_single_file_spec :
    ∀ (file_name now : String) (prior : Option (List String))
      (chunks : List RawFrame) (total : Nat) (out : Option (List String))
      (staging0 staging : List (List (Option String))),
      process_single_file file_name now prior chunks staging0 =
        Except.ok (total, out, staging) →
      process_single_file file_name now none chunks staging0 =
        Except.ok (total, out, staging) ∧
      total = (chunks.map (fun c => c.rows.length)).sum ∧
      staging.length = staging0.length + total ∧
      ((out = none ∧ total = 0) ∨
        ∃ lines, out = some lines ∧ lines.length = total + 1 ∧
          lines.head? = some headerLine) := by
  intro fn now prior chunks total out staging0 staging h
  refine ⟨h, ?_⟩
  unfold process_single_file at h
  cases hp : processChunks fn now chunks ⟨0, none, true, staging0⟩ with
  | error e =>
      simp only [hp] at h
      exact Except.noConfusion h
  | ok st =>
      simp only [hp, Except.ok.injEq, Prod.mk.injEq] at h
      obtain ⟨h1, h2, h3⟩ := h
      subst h1; subst h2; subst h3
      obtain ⟨ht, hs, hg⟩ := processChunks_spec fn now chunks _ st hp
      have ht2 : st.total = (chunks.map (fun c => c.rows.length)).sum := by
        simpa using ht
      have hs2 : st.staging.length =
          staging0.length + (chunks.map (fun c => c.rows.length)).sum := by
        simpa using hs
      have hgood := hg (Or.inl ⟨rfl, rfl, rfl⟩)
      refine ⟨ht2, ?_, ?_⟩
      · rw [hs2, ht2]
      · cases hgood with
        | inl hg0 =>
            obtain ⟨ho, _, htot⟩ := hg0
            exact Or.inl ⟨ho, htot⟩
        | inr hg1 =>
            obtain ⟨lines, ho, _, hlen, hhead⟩ := hg1
            exact Or.inr ⟨lines, ho, hlen, hhead⟩

theorem process_single_file_spec_witness :
    process_single_file "states_t.csv" "NOW" (some ["stale"])
        [⟨accessedCols, [List.replicate 12 none, List.replicate 12 none]⟩,
         ⟨accessedCols, [List.replicate 12 none]⟩] [] =
      Except.ok (3,
        some [headerLine,
          "NOW,states_t.csv,,,,,,,,,,,,,,,,,",
          "NOW,states_t.csv,,,,,,,,,,,,,,,,,",
          "NOW,states_t.csv,,,,,,,,,,,,,,,,,"],
        [List.replicate 12 none ++ [some "NOW", some "states_t.csv"],
         List.replicate 12 none ++ [some "NOW", some "states_t.csv"],
         List.replicate 12 none ++ [some "NOW", some "states_t.csv"]]) ∧
    3 = ([(⟨accessedCols, [List.replicate 12 none, List.replicate 12 none]⟩ : RawFrame),
          ⟨accessedCols, [List.replicate 12 none]⟩].map
            (fun c => c.rows.length)).sum :=
  ⟨by rfl,
   (process_single_file_spec "states_t.csv" "NOW" (some ["stale"])
      [⟨accessedCols, [List.replicate 12 none, List.replicate 12 none]⟩,
       ⟨accessedCols, [List.replicate 12 none]⟩] 3
      (some [headerLine,
        "NOW,states_t.csv,,,,,,,,,,,,,,,,,",
        "NOW,states_t.csv,,,,,,,,,,,,,,,,,",
        "NOW,states_t.csv,,,,,,,,,,,,,,,,,"])
      []
      [List.replicate 12 none ++ [some "NOW", some "states_t.csv"],
       List.replicate 12 none ++ [some "NOW", some "states_t.csv"],
       List.replicate 12 none ++ [some "NOW", some "states_t.csv"]]
      (by rfl)).2.1⟩

end OpenSky
